import Mathlib

/-!
Verification of the live-feed ingestion & fan-out engine specification
against the repository's prototype sources (WebSocket server `server.js`,
socket.io server, Poller-based server, SSE servers, browser overlay,
Cloudflare functions).

The JavaScript sources are shallowly embedded: semi-structured upstream
payloads become the inductive value type `JVal`; JS truthiness, `||`, `??`,
property access and array indexing are modelled by total functions
(`truthy`, `jOr`, `jNullish`, `jGet`, `jIdx`); calls that can raise a
`TypeError` at runtime (e.g. `.find`, `.toLowerCase`, `.slice`, `.join` on a
value that lacks the method) return `Except String _`.  `JVal` carries data
only: function-valued fields (such as the youtubei `Text#toHTML` method) are
not representable, so the corresponding source branches are statically dead
in the embedding and noted where they occur.  Property access `jGet` models
optional-chained access (`x?.k`); the few non-optional accesses in the
sources are only reached with non-null receivers in the modelled traces.
-/

/-- A JavaScript value: `null`/`undefined` (conflated), booleans, numbers
(integral; the sources compare them only for identity), strings, arrays and
plain objects. -/
inductive JVal where
  | null
  | bool (b : Bool)
  | num (n : Int)
  | str (s : String)
  | arr (elems : List JVal)
  | obj (fields : List (String × JVal))
deriving Repr

mutual

/-- Structural equality on `JVal`, modelling JS `===` on the data fragment
the sources compare (primitives against literals, ids in a `Set`). -/
def jBeq : JVal → JVal → Bool
  | .null, .null => true
  | .bool a, .bool b => a == b
  | .num a, .num b => a == b
  | .str a, .str b => a == b
  | .arr a, .arr b => jBeqList a b
  | .obj a, .obj b => jBeqFields a b
  | _, _ => false

/-- Elementwise equality of `JVal` lists. -/
def jBeqList : List JVal → List JVal → Bool
  | [], [] => true
  | x :: xs, y :: ys => jBeq x y && jBeqList xs ys
  | _, _ => false

/-- Elementwise equality of `JVal` field lists. -/
def jBeqFields : List (String × JVal) → List (String × JVal) → Bool
  | [], [] => true
  | (k1, v1) :: xs, (k2, v2) :: ys => k1 == k2 && jBeq v1 v2 && jBeqFields xs ys
  | _, _ => false

end

mutual

theorem jBeq_iff : (a b : JVal) → (jBeq a b = true ↔ a = b)
  | .null, .null => by simp [jBeq]
  | .null, .bool _ | .null, .num _ | .null, .str _ | .null, .arr _ | .null, .obj _ => by simp [jBeq]
  | .bool _, .null | .bool _, .num _ | .bool _, .str _ | .bool _, .arr _ | .bool _, .obj _ => by simp [jBeq]
  | .num _, .null | .num _, .bool _ | .num _, .str _ | .num _, .arr _ | .num _, .obj _ => by simp [jBeq]
  | .str _, .null | .str _, .bool _ | .str _, .num _ | .str _, .arr _ | .str _, .obj _ => by simp [jBeq]
  | .arr _, .null | .arr _, .bool _ | .arr _, .num _ | .arr _, .str _ | .arr _, .obj _ => by simp [jBeq]
  | .obj _, .null | .obj _, .bool _ | .obj _, .num _ | .obj _, .str _ | .obj _, .arr _ => by simp [jBeq]
  | .bool a, .bool b => by simp [jBeq]
  | .num a, .num b => by simp [jBeq]
  | .str a, .str b => by simp [jBeq]
  | .arr a, .arr b => by simp [jBeq, jBeqList_iff a b]
  | .obj a, .obj b => by simp [jBeq, jBeqFields_iff a b]

theorem jBeqList_iff : (xs ys : List JVal) → (jBeqList xs ys = true ↔ xs = ys)
  | [], [] => by simp [jBeqList]
  | [], _ :: _ => by simp [jBeqList]
  | _ :: _, [] => by simp [jBeqList]
  | x :: xs, y :: ys => by
    simp [jBeqList, jBeq_iff x y, jBeqList_iff xs ys]

theorem jBeqFields_iff : (xs ys : List (String × JVal)) → (jBeqFields xs ys = true ↔ xs = ys)
  | [], [] => by simp [jBeqFields]
  | [], _ :: _ => by simp [jBeqFields]
  | _ :: _, [] => by simp [jBeqFields]
  | (k1, v1) :: xs, (k2, v2) :: ys => by
    simp [jBeqFields, jBeq_iff v1 v2, jBeqFields_iff xs ys, and_assoc]

end

instance : DecidableEq JVal := fun a b =>
  decidable_of_iff (jBeq a b = true) (jBeq_iff a b)

/-- JS truthiness: `null`/`undefined`, `false`, `0` and `""` are falsy;
every array and object is truthy. -/
def truthy : JVal → Bool
  | .null => false
  | .bool b => b
  | .num n => n != 0
  | .str s => s ≠ ""
  | .arr _ => true
  | .obj _ => true

/-- JS `a || b`: yields `a` when truthy, else `b`. -/
def jOr (a b : JVal) : JVal := if truthy a then a else b

/-- JS `a ?? b`: yields `a` unless it is `null`/`undefined`. -/
def jNullish (a b : JVal) : JVal := if a = .null then b else a

/-- Property access `x?.k`: field lookup on objects, `undefined` otherwise. -/
def jGet (v : JVal) (k : String) : JVal :=
  match v with
  | .obj fs =>
    match fs.find? (fun p => decide (p.1 = k)) with
    | some p => p.2
    | none => .null
  | _ => .null

/-- Index access `x?.[i]`: array element, character of a string, else
`undefined`. -/
def jIdx (v : JVal) (i : Nat) : JVal :=
  match v with
  | .arr xs => (xs.get? i).getD .null
  | .str s => ((s.data.get? i).map (fun c => JVal.str (String.mk [c]))).getD .null
  | _ => .null

/-- The value of `x[x.length - 1]` as the sources write it: last element of
an array; `undefined` on anything else (a non-array's `length` is
`undefined`, making the index `NaN`). -/
def jIdxLast (v : JVal) : JVal :=
  match v with
  | .arr xs => (xs.getLast?).getD .null
  | _ => .null

mutual

/-- JS `String(v)` conversion: arrays join their elements with commas,
objects stringify to `"[object Object]"`. -/
def jStringOf : JVal → String
  | .null => "null"
  | .bool b => if b then "true" else "false"
  | .num n => toString n
  | .str s => s
  | .arr xs => jStringOfList xs
  | .obj _ => "[object Object]"

/-- Comma-joined rendering of array elements, as `String(someArray)` does;
`null`/`undefined` elements render empty. -/
def jStringOfList : List JVal → String
  | [] => ""
  | [x] => if x = .null then "" else jStringOf x
  | x :: xs => (if x = .null then "" else jStringOf x) ++ "," ++ jStringOfList xs

end

/-! ## Poll cadence (C6)

`server/server.js` (and `server/server.js` in the key-mapped prototype)
compute the wait between live-chat fetches as
`const wait = response?.pollingIntervalMillis ? response.pollingIntervalMillis : 1500`
followed by `await new Promise(r => setTimeout(r, Math.max(800, wait)))`.
The Poller prototype clamps its frequency with
`this.freqMs = Math.max(250, Math.floor(ms))` in `setFreq` and the
constructor. -/

/-- Wait computed before the next fetch in the SSE polling loops: the
upstream `pollingIntervalMillis` when present and truthy (`0` is falsy in
JS and falls back to the default `1500`), clamped below by the 800 ms
floor. -/
def pollWaitMs (pollingIntervalMillis : Option Nat) : Nat :=
  let wait :=
    match pollingIntervalMillis with
    | some w => if w ≠ 0 then w else 1500
    | none => 1500
  Nat.max 800 wait

/-- `Poller.setFreq` / the `Poller` constructor: requested frequency clamped
below by 250 ms. -/
def pollerSetFreq (ms : Nat) : Nat := Nat.max 250 ms

/-! ## Subscriber-visible status strings (C7)

`server.js` (`ChatManager`): the resolve-failure path broadcasts a fixed
string (`catch { this.broadcast({ type: 'status', text: 'Waiting for stream…' }) }`
in `loop`), the `end` handler broadcasts a fixed string, and the `error`
handler broadcasts `` `Chat error: ${String(e?.message || e)}` `` — the raw
exception message. -/

/-- Status text broadcast to every subscriber when `attach` throws inside
`ChatManager.loop`; the error value is discarded. -/
def resolveFailStatusText (_errDetail : String) : String := "Waiting for stream…"

/-- Status text broadcast by the `chat.on('end')` handler. -/
def streamEndStatusText : String := "Stream ended. Waiting for next live…"

/-- Status text broadcast by the `chat.on('error')` handler, where
`errDetail` is `String(e?.message || e)` — the raw upstream error detail. -/
def chatErrorStatusText (errDetail : String) : String := "Chat error: " ++ errDetail

/-- Character-list substring scan used by `strContains`. -/
def charsContain (needle : List Char) : List Char → Bool
  | [] => needle.isEmpty
  | c :: cs => needle.isPrefixOf (c :: cs) || charsContain needle cs

/-- Substring test (`String.prototype.includes`). -/
def strContains (hay needle : String) : Bool := charsContain needle.data hay.data

/-! ## Synthesized message ids (C9)

`extractRenderable` in the SSE prototype:
`const id = item.id || item.timestampUsec || Math.random().toString(36).slice(2);`.
The draw from `Math.random()` is passed explicitly as `rand`, so normalizing
the same event twice in one run corresponds to two calls with two
(independent, almost surely different) draws. -/

/-- Id chosen by `extractRenderable`: upstream `id` when truthy, else
`timestampUsec` when truthy, else the fresh random string. -/
def extractRenderableId (item : JVal) (rand : String) : JVal :=
  jOr (jGet item "id") (jOr (jGet item "timestampUsec") (.str rand))

/-! ## Cloudflare yt-proxy (C10)

`functions/api/yt-proxy.ts` `onRequest`: missing `?url` yields status 400;
a target URL whose hostname is not in the fixed allowlist yields status 403
before any fetch; otherwise the request is forwarded upstream. -/

/-- The fixed allowlist of YouTube/Google hosts. -/
def allowedHosts : List String :=
  ["www.youtube.com", "youtubei.googleapis.com", "i.ytimg.com", "yt3.ggpht.com",
   "yt3.googleusercontent.com", "music.youtube.com", "m.youtube.com"]

/-- A parsed target URL; `new URL(target)` throwing on malformed input is
outside this record (no fetch happens in that case either). -/
structure TargetUrl where
  hostname : String
deriving DecidableEq, Repr

/-- Outcome of `onRequest`: early 400 for a missing `?url`, early 403 for a
disallowed host, or the upstream fetch. -/
inductive ProxyOutcome where
  | missingUrl
  | forbidden
  | proxied (hostname : String)
deriving DecidableEq, Repr

/-- The `onRequest` handler over the parsed `?url` parameter. -/
def ytProxyOnRequest : Option TargetUrl → ProxyOutcome
  | none => .missingUrl
  | some t =>
    if allowedHosts.contains t.hostname then .proxied t.hostname else .forbidden

/-- Response status of the handler itself; `none` for the proxied case
(the upstream response's status is passed through). -/
def proxyStatus : ProxyOutcome → Option Nat
  | .missingUrl => some 400
  | .forbidden => some 403
  | .proxied _ => none

/-- Whether the handler performed an upstream fetch. -/
def proxyFetchPerformed : ProxyOutcome → Bool
  | .proxied _ => true
  | .missingUrl => false
  | .forbidden => false

/-! ## Deduplicating SSE delivery loop (C2, C3)

The `/sse` handler of the SSE prototype keeps `const seen = new Set()` and,
for each renderable message extracted from a poll response, runs
`if (msg.id && seen.has(msg.id)) continue; if (msg.id) seen.add(msg.id);`
before writing the message to the client.  The overlay (`public/overlay.js`)
does the same with `seenIds`.  Neither set has a size bound or an eviction
policy. -/

/-- A renderable message as produced by `extractRenderable`; only the `id`
is inspected by the dedup step, the rest is the delivered payload. -/
structure SseMsg where
  id : JVal
  author : JVal
deriving DecidableEq, Repr

/-- Membership in the `seen` set (`Set.prototype.has`). -/
def jMem (x : JVal) : List JVal → Bool
  | [] => false
  | y :: ys => if x = y then true else jMem x ys

/-- The per-response delivery loop: returns the messages written to the
client and the final `seen` set.  A message with a truthy already-seen id is
skipped; a truthy unseen id is recorded and the message delivered; a falsy
id is delivered without being recorded. -/
def sseDeliverLoop : List SseMsg → List JVal → (List SseMsg × List JVal)
  | [], seen => ([], seen)
  | m :: ms, seen =>
    if truthy m.id ∧ jMem m.id seen then sseDeliverLoop ms seen
    else
      let seen' := if truthy m.id then m.id :: seen else seen
      let r := sseDeliverLoop ms seen'
      (m :: r.1, r.2)

/-! ## WebSocket session registry (C1, C5)

`server.js` (first prototype): `const managers = new Map()`;
`wss.on('connection')` looks the channel up, creates a `ChatManager` and
calls `start()` (spawning the single polling loop) only when absent, then
adds the socket via `addClient`, which also registers a `close` handler that
merely deletes the socket from `clients`.  `ChatManager.stop` exists but is
never called by any code path, and nothing ever deletes a manager from
`managers`: there is no idle timer. -/

/-- A connected WebSocket: identity plus `readyState` (1 = OPEN). -/
structure WsClient where
  wsId : Nat
  readyState : Nat
deriving DecidableEq, Repr

/-- The per-channel manager: subscriber set, stop flag, and the number of
times `start()` was invoked for it (= polling loops spawned). -/
structure ChatManager where
  channelId : String
  clients : List WsClient
  stopped : Bool
  startCalls : Nat
deriving DecidableEq, Repr

/-- `ChatManager.addClient`: `this.clients.add(ws)` (set semantics). -/
def mgrAddClient (m : ChatManager) (ws : WsClient) : ChatManager :=
  { m with clients := if m.clients.contains ws then m.clients else ws :: m.clients }

/-- The `close` handler registered by `addClient`:
`this.clients.delete(ws)` and nothing else. -/
def mgrRemoveClient (m : ChatManager) (ws : WsClient) : ChatManager :=
  { m with clients := m.clients.filter (fun c => !(c == ws)) }

/-- `ChatManager.broadcast`: serialize once and send the same data to every
client whose `readyState` is 1. -/
def mgrBroadcast (m : ChatManager) (data : String) : List (Nat × String) :=
  (m.clients.filter (fun c => c.readyState == 1)).map (fun c => (c.wsId, data))

/-- The `managers` map, insertion-ordered. -/
abbrev Managers : Type := List (String × ChatManager)

/-- `managers.get(channelId)`. -/
def mgrLookup (st : Managers) (ch : String) : Option ChatManager :=
  match List.find? (fun p => decide (p.1 = ch)) st with
  | some p => some p.2
  | none => none

/-- Replace the manager stored under `ch`. -/
def mgrUpdate (st : Managers) (ch : String) (m : ChatManager) : Managers :=
  List.map (fun p => if p.1 = ch then (ch, m) else p) st

/-- The `wss.on('connection')` handler for a request carrying `channelId`:
reuse the existing manager when present, otherwise create one, store it and
call `start()` exactly once; in both cases add the socket. -/
def wsConnection (st : Managers) (ch : String) (ws : WsClient) : Managers :=
  match mgrLookup st ch with
  | some m => mgrUpdate st ch (mgrAddClient m ws)
  | none =>
    (ch, mgrAddClient { channelId := ch, clients := [], stopped := false, startCalls := 1 } ws) :: st

/-- The socket `close` event for a socket attached to channel `ch`. -/
def wsClose (st : Managers) (ch : String) (ws : WsClient) : Managers :=
  match mgrLookup st ch with
  | some m => mgrUpdate st ch (mgrRemoveClient m ws)
  | none => st

/-- Run a sequence of connection events against an empty registry. -/
def runConnections (trace : List (String × WsClient)) : Managers :=
  List.foldl (fun st p => wsConnection st p.1 p.2) ([] : Managers) trace

/-! ## Per-request SSE streaming (C1 counterexample)

The key-mapped SSE prototype has no registry at all: every accepted
`GET /sse?key=…` request calls `streamChatSSE(res, youtube, channelId)`,
which resolves the live video and runs its own `while (running)` polling
loop against its own `liveChat` handle.  Two concurrent subscribers to the
same channel therefore run two independent upstream poll loops. -/

/-- The set of running `streamChatSSE` loops, one entry (its channel id) per
accepted request. -/
structure SseServer where
  activeLoops : List String
deriving DecidableEq, Repr

/-- `app.get('/sse')` with a valid key for `channelId`: starts a fresh
`streamChatSSE` polling loop for this response. -/
def sseConnect (st : SseServer) (channelId : String) : SseServer :=
  { activeLoops := channelId :: st.activeLoops }

/-- Number of upstream poll loops currently running for a channel. -/
def sseLoopCount (st : SseServer) (ch : String) : Nat :=
  (st.activeLoops.filter (fun c => decide (c = ch))).length

/-! ## Poller lifecycle (C5)

The Poller prototype: `removeClientSocket` removes the socket and, when no
clients remain and no grace timer is pending, schedules `stop()` after a
fixed 20 000 ms; `addClientSocket` adds the socket and clears any pending
grace timer; the timer callback stops the poller and `stop()` deletes it
from the `pollers` map only if it still has no clients. -/

/-- Grace period before an idle poller is stopped (`20_000` in
`removeClientSocket`). -/
def graceStopDelayMs : Nat := 20000

/-- Poller state: subscriber sockets, whether a grace-stop timer is
pending, and whether the loop is running. -/
structure Poller where
  videoId : String
  clientSockets : List Nat
  graceStopPending : Bool
  running : Bool
deriving DecidableEq, Repr

/-- `Poller.addClientSocket`: add the socket and clear any scheduled
grace stop. -/
def pollerAddClient (p : Poller) (s : Nat) : Poller :=
  { p with
    clientSockets := if p.clientSockets.contains s then p.clientSockets else s :: p.clientSockets,
    graceStopPending := false }

/-- `Poller.removeClientSocket`: delete the socket; if no clients remain
and no grace stop is pending, schedule one. -/
def pollerRemoveClient (p : Poller) (s : Nat) : Poller :=
  let cs := p.clientSockets.filter (fun c => !(c == s))
  { p with
    clientSockets := cs,
    graceStopPending := if cs.isEmpty then true else p.graceStopPending }

/-- The `pollers` map. -/
abbrev Pollers : Type := List (String × Poller)

/-- `pollers.get(videoId)`. -/
def pollersLookup (reg : Pollers) (vid : String) : Option Poller :=
  match List.find? (fun p => decide (p.1 = vid)) reg with
  | some p => some p.2
  | none => none

/-- The grace-stop timer firing for `vid`: if the poller still has no
clients, `stop()` sets `running = false` and deletes it from the map. -/
def graceTimerFire (reg : Pollers) (vid : String) : Pollers :=
  match pollersLookup reg vid with
  | some p =>
    if p.graceStopPending ∧ p.clientSockets.isEmpty then
      reg.filter (fun q => !(decide (q.1 = vid)))
    else reg
  | none => reg

/-! ## Normalization in `server.js` (C4)

`ChatManager.attach` installs
`const handle = (evt) => { try { const arr = normalizeActions(evt); if (!arr.length) return; for (const m of parseActions(arr)) this.broadcast(...) } catch (e) { console.error(...) } }`.
`parseActions` itself has no per-event protection: `parseActions(arr)` is
fully computed before the first broadcast, so an exception raised while
normalizing one event discards every sibling's message as well. -/

/-- One HTML-escaped character (the `esc` helper of `server.js`, replacing
the five special characters). -/
def escChar (c : Char) : String :=
  if c = '&' then "&amp;"
  else if c = '<' then "&lt;"
  else if c = '>' then "&gt;"
  else if c = Char.ofNat 34 then "&quot;"
  else if c = Char.ofNat 39 then "&#39;"
  else String.mk [c]

/-- The `esc` helper on a string. -/
def escHtml (s : String) : String := String.join (s.data.map escChar)

/-- The `esc` helper applied to an arbitrary value (`String(s)` then
replace). -/
def escJ (v : JVal) : String := escHtml (jStringOf v)

/-- One run rendered by `runsToHtml` of `server.js`: escaped text when
`r?.text != null` (a nullish test, so empty strings count), an `<img>` tag
or escaped alt text for emoji runs, nothing otherwise. -/
def runHtml (r : JVal) : String :=
  if jGet r "text" ≠ JVal.null then escJ (jGet r "text")
  else if truthy (jGet r "emoji") then
    let em := jGet r "emoji"
    let thumbs := jOr (jGet (jGet em "image") "thumbnails") (jOr (jGet em "thumbnails") (.arr []))
    let src := jOr (jGet (jIdxLast thumbs) "url") (jOr (jGet (jIdx thumbs 0) "url") (.str ""))
    let alt := jOr (jIdx (jGet em "shortcuts") 0) (jOr (jGet em "label") (.str "emoji"))
    if truthy src then
      "<img class=\"yt-emoji emoji\" src=\"" ++ escJ src ++ "\" data-src=\"" ++ escJ src
        ++ "\" alt=\"" ++ escJ alt ++ "\" />"
    else escJ alt
  else ""

/-- `runsToHtml` of `server.js`: the concatenation, in run order, of each
run's rendering. -/
def runsToHtml (runs : List JVal) : String := String.join (runs.map runHtml)

/-- The last-resort branch of `textToHtml`: escape strings, stringify and
escape other non-null values, empty output for `null`. -/
def lastResortHtml (v : JVal) : String :=
  match v with
  | .str s => escHtml s
  | .null => ""
  | w => escHtml (jStringOf w)

/-- `textToHtml` of `server.js`.  The `Text#toHTML()` branch requires a
function-valued field and `JVal` carries data only, so it is statically
dead here; the runs fallback and the last-resort stringification are
translated in full. -/
def textToHtml (v : JVal) : String :=
  let runs :=
    jOr (if truthy v then jOr (jGet v "runs") (jGet (jGet v "text") "runs") else v)
      (match v with | .arr _ => v | _ => .null)
  match runs with
  | .arr rs => if rs.length ≠ 0 then runsToHtml rs else lastResortHtml v
  | _ => lastResortHtml v

/-- `(b?.tooltip || b?.label || '')` — the string a badge is classified
by. -/
def tipOf (b : JVal) : JVal := jOr (jGet b "tooltip") (jOr (jGet b "label") (.str ""))

/-- `.toLowerCase()`: only strings carry the method; on any other receiver
the call raises a `TypeError`. -/
def jToLowerE (v : JVal) : Except String String :=
  match v with
  | .str s => .ok s.toLower
  | _ => .error "toLowerCase is not a function"

/-- `badges.find(b => (b?.tooltip || b?.label || '').toLowerCase().includes(needle))`
over the elements of an array, with the early exit of `find`. -/
def findBadgeTip (needle : String) : List JVal → Except String Bool
  | [] => .ok false
  | b :: bs => do
    let low ← jToLowerE (tipOf b)
    if strContains low needle then .ok true else findBadgeTip needle bs

/-- The same `badges.find(...)` call on an arbitrary value: a non-array
receiver has no `find` method and raises a `TypeError`. -/
def jFindBadgeTip (needle : String) (badges : JVal) : Except String Bool :=
  match badges with
  | .arr bs => findBadgeTip needle bs
  | _ => .error "badges.find is not a function"

/-- The thumbnail-list fallback chain for a membership badge. -/
def memberBadgeThumbs (b : JVal) : JVal :=
  jOr (jGet (jGet b "custom_thumbnail") "thumbnails")
    (jOr (jGet (jGet b "thumbnail") "thumbnails")
      (jOr (jGet b "thumbnails") (jOr (jGet (jGet b "icon") "thumbnails") (.arr []))))

/-- `pickThumbUrl` of `server.js`: `null` unless a non-empty array, else the
last element's `url`, the first element's `url`, or `null`. -/
def pickThumbUrl (thumbs : JVal) : JVal :=
  match thumbs with
  | .arr [] => .null
  | .arr ts => jOr (jGet (jIdxLast (.arr ts)) "url") (jOr (jGet (jIdx (.arr ts) 0) "url") .null)
  | _ => .null

/-- The `member_badges` collection loop over an array of badges. -/
def memberBadgeUrlsList : List JVal → Except String (List JVal)
  | [] => .ok []
  | b :: bs => do
    let low ← jToLowerE (tipOf b)
    if ¬ strContains low "member" then memberBadgeUrlsList bs
    else
      let url := pickThumbUrl (memberBadgeThumbs b)
      let rest ← memberBadgeUrlsList bs
      return (if truthy url then url :: rest else rest)

/-- `for (const b of badges)` on an arbitrary value: only arrays are
iterable here. -/
def jMemberBadgeUrls (badges : JVal) : Except String (List JVal) :=
  match badges with
  | .arr bs => memberBadgeUrlsList bs
  | _ => .error "badges is not iterable"

/-- `name?.toString?.()`: `undefined` for a nullish receiver, otherwise the
JS string conversion. -/
def jToStringCall (v : JVal) : JVal :=
  match v with
  | .null => .null
  | w => .str (jStringOf w)

/-- The canonical record pushed by `parseActions` for one accepted chat
item. -/
structure ChatOut where
  author : JVal
  html : String
  isMod : Bool
  isOwner : Bool
  isMember : Bool
  memberBadgeUrls : List JVal
  rawType : JVal
deriving DecidableEq, Repr

/-- The body of the `parseActions` loop for a single action: `none` when the
action is filtered out, `some` record when accepted, `error` when a
`TypeError` escapes (which aborts the whole `parseActions` call). -/
def parseOneAction (act : JVal) : Except String (Option ChatOut) := do
  let t := jOr (jGet act "type") (jOr (jGet act "action_type") (.str ""))
  if truthy t ∧ t ≠ JVal.str "AddChatItemAction" then return none
  let item := jOr (jGet act "item") act
  let itype := jOr (jGet item "type") (jOr (jGet item "item_type") (.str ""))
  if ¬ (itype = JVal.str "LiveChatTextMessage" ∨ itype = JVal.str "LiveChatPaidMessage"
      ∨ itype = JVal.str "LiveChatMembershipItem") then return none
  let author := jNullish (jToStringCall (jGet (jGet item "author") "name"))
      (jNullish (jGet (jGet (jGet item "author") "name") "text")
        (jNullish (jGet (jGet item "author_name") "text")
          (jNullish (jGet item "authorName") (.str "User"))))
  let html := textToHtml (jNullish (jGet item "message")
      (jNullish (jGet (jGet item "message") "text")
        (jNullish (jGet item "header_primary_text")
          (jNullish (jGet item "headerPrimaryText") .null))))
  let badges := jOr (jGet item "author_badges") (jOr (jGet item "authorBadges") (.arr []))
  let isMod ← jFindBadgeTip "moderator" badges
  let isOwner ← jFindBadgeTip "owner" badges
  let isMember ← jFindBadgeTip "member" badges
  let memberUrls ← jMemberBadgeUrls badges
  return some { author := author, html := html, isMod := isMod, isOwner := isOwner,
                isMember := isMember, memberBadgeUrls := memberUrls, rawType := itype }

/-- `parseActions` of `server.js`: the whole list is processed before
anything is returned, and an exception anywhere aborts every sibling. -/
def parseActions : List JVal → Except String (List ChatOut)
  | [] => .ok []
  | a :: as => do
    let r ← parseOneAction a
    let rest ← parseActions as
    return (match r with | some m => m :: rest | none => rest)

/-- `normalizeActions` of `server.js`.  In this value model the only
iterables are arrays and strings (`Array.from` of a string yields its
characters), covering the `Symbol.iterator` branches. -/
def normalizeActions (evt : JVal) : List JVal :=
  if ¬ truthy evt then []
  else
    match evt with
    | .arr xs => xs
    | .str s => s.data.map (fun c => JVal.str (String.mk [c]))
    | .obj _ =>
      match jGet evt "actions" with
      | .arr xs => xs
      | .str s => s.data.map (fun c => JVal.str (String.mk [c]))
      | _ =>
        if truthy (jGet evt "action") then [jGet evt "action"]
        else if truthy (jGet evt "type") ∨ truthy (jGet evt "item")
            ∨ truthy (jGet evt "item_type") then [evt]
        else []
    | _ => []

/-- Messages actually broadcast by `handle` for one upstream event: all of
`parseActions`' output on success, nothing when it throws (the `catch` only
logs). -/
def handleDelivered (evt : JVal) : List ChatOut :=
  let arr := normalizeActions evt
  if arr.length = 0 then []
  else
    match parseActions arr with
    | .ok ms => ms
    | .error _ => []

/-! ## Rich-text segments in `parseChatAction` (C8)

The Poller prototype's `parseChatAction` walks `renderer.message.runs` and
pushes exactly one part per run, in run order: a text part for a truthy
`run.text`, an emoji part (image url + alt) for a truthy `run.emoji`, and a
text fallback otherwise.  The url/alt fallback chains call `.slice(-1)` and
`.join(' ')`, which raise a `TypeError` on receivers lacking the method, so
the per-run translation lives in `Except`. -/

/-- `Array.prototype.join` with a separator; nullish elements render
empty. -/
def jJoinWith (sep : String) : List JVal → String
  | [] => ""
  | [x] => if x = .null then "" else jStringOf x
  | x :: xs => (if x = .null then "" else jStringOf x) ++ sep ++ jJoinWith sep xs

/-- `xs?.join(' ')`: short-circuits on nullish, joins arrays, raises a
`TypeError` otherwise. -/
def jJoinSpaceE (v : JVal) : Except String JVal :=
  match v with
  | .null => .ok .null
  | .arr xs => .ok (.str (jJoinWith " " xs))
  | _ => .error "join is not a function"

/-- `xs?.slice(-1)`: short-circuits on nullish, takes the last element of an
array or character of a string, raises a `TypeError` otherwise. -/
def jSliceLastE (v : JVal) : Except String JVal :=
  match v with
  | .null => .ok .null
  | .arr xs => .ok (.arr (match xs.getLast? with | some x => [x] | none => []))
  | .str s => .ok (.str (match s.data.getLast? with | some c => String.mk [c] | none => ""))
  | _ => .error "slice is not a function"

/-- The image-url fallback chain for an emoji run of `parseChatAction`,
with JS `||` short-circuiting. -/
def emojiImgUrl (em : JVal) : Except String JVal := do
  let s1 ← jSliceLastE (jGet (jGet em "image") "thumbnails")
  let a := jGet (jIdx s1 0) "url"
  if truthy a then return a
  let b := jGet (jGet (jGet em "image") "thumbnail") "url"
  if truthy b then return b
  let c := jGet (jGet em "image") "url"
  if truthy c then return c
  let s2 ← jSliceLastE (jGet em "thumbnails")
  return jGet (jIdx s2 0) "url"

/-- The alt-text fallback chain for an emoji run of `parseChatAction`. -/
def emojiAltVal (em : JVal) : Except String JVal := do
  let s := jGet em "shortcuts"
  if truthy s then return s
  let j ← jJoinSpaceE (jGet em "searchTerms")
  if truthy j then return j
  return jOr (jGet em "emojiId") (jOr (jGet em "tooltip") (jOr (jGet em "alt") (.str "")))

/-- One canonical rich-text segment (`{type:'text'}` or `{type:'emoji'}`). -/
inductive MsgPart where
  | text (t : JVal)
  | emoji (url : JVal) (alt : JVal)
deriving DecidableEq, Repr

/-- The body of the `parseChatAction` runs loop for one run; each run yields
exactly one part.  (The `run?.emoji?.shortcuts` branch is unreachable — a
truthy `emoji` is handled by the branch above — but is translated
anyway.) -/
def partOfRun (run : JVal) : Except String MsgPart := do
  if truthy (jGet run "text") then return .text (jGet run "text")
  if truthy (jGet run "emoji") then
    let em := jGet run "emoji"
    let img ← emojiImgUrl em
    let alt ← emojiAltVal em
    return .emoji img alt
  if truthy (jGet (jGet run "emoji") "shortcuts") then
    return .text (jGet (jGet run "emoji") "shortcuts")
  return .text (jOr (jGet run "text") (.str ""))

/-- The full `parts` list built from `renderer.message.runs`, in run
order; a `TypeError` on any run aborts the loop. -/
def partsOfRuns : List JVal → Except String (List MsgPart)
  | [] => .ok []
  | r :: rs =>
    match partOfRun r with
    | .error e => .error e
    | .ok p =>
      match partsOfRuns rs with
      | .error e => .error e
      | .ok ps => .ok (p :: ps)

/-! ## Concrete actions used for claim C4 -/

/-- A well-formed `AddChatItemAction`-shaped event: a text message from
"alice" saying "hi". -/
def goodChatAction : JVal :=
  .obj [("item", .obj [("type", .str "LiveChatTextMessage"), ("authorName", .str "alice"),
    ("message", .obj [("runs", .arr [.obj [("text", .str "hi")]])])])]

/-- A malformed sibling: a text message whose `author_badges` field is the
number 42, so `badges.find(...)` raises a `TypeError`. -/
def badBadgesAction : JVal :=
  .obj [("item", .obj [("type", .str "LiveChatTextMessage"), ("author_badges", .num 42)])]

/-- Claim C4 (code bug): a single malformed event aborts normalization of
its well-formed sibling.  `parseActions` throws on the batch containing
`badBadgesAction`, so `handle` broadcasts nothing from that batch, although
the well-formed sibling alone yields one delivered message. -/
theorem malformed_event_aborts_batch :
    (parseActions [goodChatAction, badBadgesAction]).isOk = false
      ∧ handleDelivered (.arr [goodChatAction, badBadgesAction]) = []
      ∧ handleDelivered (.arr [goodChatAction])
        = [{ author := .str "alice", html := "hi", isMod := false, isOwner := false,
             isMember := false, memberBadgeUrls := [], rawType := .str "LiveChatTextMessage" }] :=
  ⟨rfl, rfl, rfl⟩

/-- Claim C6: the wait before the next fetch is at least the 800 ms floor
for every response, and when upstream suggests a (present, truthy) polling
interval the wait equals the maximum of the floor and the suggestion, so
the floor is never bypassed; the Poller's 250 ms frequency floor holds as
well. -/
theorem poll_wait_respects_floor (p : Option Nat) (w ms : Nat) (hw : 0 < w) :
    800 ≤ pollWaitMs p ∧ pollWaitMs (some w) = Nat.max 800 w ∧ 250 ≤ pollerSetFreq ms := by
  refine ⟨?_, ?_, ?_⟩
  · cases p with
    | none => exact Nat.le_max_left _ _
    | some w' => exact Nat.le_max_left _ _
  · have hne : w ≠ 0 := Nat.pos_iff_ne_zero.mp hw
    simp [pollWaitMs, hne]
  · exact Nat.le_max_left _ _

/-- Witness for the poll-floor theorem at an upstream suggestion of 300 ms
(shorter than the floor). -/
theorem poll_wait_respects_floor_witness :
    800 ≤ pollWaitMs (some 300) ∧ pollWaitMs (some 300) = Nat.max 800 300
      ∧ 250 ≤ pollerSetFreq 700 :=
  poll_wait_respects_floor (some 300) 300 700 (by decide)

/-- Claim C7 counterexample: the `chat.on('error')` handler of
`ChatManager.attach` broadcasts the raw exception message across the
subscriber boundary — for an upstream error whose message is "ECONNRESET"
the subscriber-visible status text contains that raw detail verbatim. -/
theorem chat_error_exposes_raw_detail :
    chatErrorStatusText "ECONNRESET" = "Chat error: ECONNRESET"
      ∧ strContains (chatErrorStatusText "ECONNRESET") "ECONNRESET" = true :=
  ⟨rfl, by decide⟩

/-- Claim C7 amended: the resolve-failure path and the stream-end path
surface fixed operator strings independent of the error value, but the chat
error handler surfaces the raw error detail prefixed with "Chat error: ". -/
theorem status_string_paths (e1 e2 d : String) :
    resolveFailStatusText e1 = "Waiting for stream…"
      ∧ resolveFailStatusText e1 = resolveFailStatusText e2
      ∧ streamEndStatusText = "Stream ended. Waiting for next live…"
      ∧ chatErrorStatusText d = "Chat error: " ++ d :=
  ⟨rfl, rfl, rfl, rfl⟩

/-- Claim C9 counterexample: for an event with neither an upstream `id` nor
a `timestampUsec`, normalizing the same input twice within one run draws
two fresh `Math.random()` strings and yields two different synthesized
ids. -/
theorem synthesized_id_unstable :
    extractRenderableId (.obj [("authorName", .str "alice")]) "k3j9q"
      ≠ extractRenderableId (.obj [("authorName", .str "alice")]) "7x2mp" := by
  decide

/-- Claim C9 amended: the synthesized id is stable across two normalizations
of the same event exactly when the event carries a truthy upstream `id` or
`timestampUsec`; when both are absent the id is the fresh random draw
itself, hence unstable. -/
theorem synthesized_id_stability (item : JVal) (r1 r2 : String) :
    (truthy (jGet item "id") = true ∨ truthy (jGet item "timestampUsec") = true →
      extractRenderableId item r1 = extractRenderableId item r2)
    ∧ (truthy (jGet item "id") = false → truthy (jGet item "timestampUsec") = false →
      extractRenderableId item r1 = JVal.str r1) := by
  constructor
  · intro h
    by_cases hid : truthy (jGet item "id") = true
    · simp [extractRenderableId, jOr, hid]
    · rcases h with h | h
      · exact absurd h hid
      · simp [extractRenderableId, jOr, hid, h]
  · intro h1 h2
    simp [extractRenderableId, jOr, h1, h2]

/-- Witness for the id-stability theorem: an event with an upstream id is
stable across draws, and an event with neither id nor timestamp synthesizes
the draw itself. -/
theorem synthesized_id_stability_witness :
    extractRenderableId (.obj [("id", .str "m1")]) "r1"
        = extractRenderableId (.obj [("id", .str "m1")]) "r2"
      ∧ extractRenderableId (.obj []) "r1" = JVal.str "r1" :=
  ⟨(synthesized_id_stability (.obj [("id", .str "m1")]) "r1" "r2").1 (Or.inl (by decide)),
   (synthesized_id_stability (.obj []) "r1" "r2").2 (by decide) (by decide)⟩

/-- Claim C10: an upstream fetch happens only for a present target URL whose
hostname is in the allowlist; a missing `?url` yields status 400; a hostname
outside the allowlist yields status 403 with no upstream fetch. -/
theorem yt_proxy_allowlist (t : Option TargetUrl) (u : TargetUrl) :
    (proxyFetchPerformed (ytProxyOnRequest t) = true →
      ∃ v, t = some v ∧ allowedHosts.contains v.hostname = true)
    ∧ proxyStatus (ytProxyOnRequest none) = some 400
    ∧ (allowedHosts.contains u.hostname = false →
      proxyStatus (ytProxyOnRequest (some u)) = some 403
        ∧ proxyFetchPerformed (ytProxyOnRequest (some u)) = false) := by
  refine ⟨?_, rfl, ?_⟩
  · intro h
    cases t with
    | none => simp [ytProxyOnRequest, proxyFetchPerformed] at h
    | some v =>
      cases hcv : allowedHosts.contains v.hostname with
      | true => exact ⟨v, rfl, hcv⟩
      | false =>
        have hm : ¬ v.hostname ∈ allowedHosts := by simpa using hcv
        simp [ytProxyOnRequest, hm, proxyFetchPerformed] at h
  · intro h
    have hm : ¬ u.hostname ∈ allowedHosts := by simpa using h
    constructor
    · simp [ytProxyOnRequest, hm, proxyStatus]
    · simp [ytProxyOnRequest, hm, proxyFetchPerformed]

/-- Witness for the proxy theorem: an allowed host is fetched, a
non-allowlisted host is rejected with 403. -/
theorem yt_proxy_allowlist_witness :
    (∃ v, (some (TargetUrl.mk "www.youtube.com")) = some v
        ∧ allowedHosts.contains v.hostname = true)
      ∧ proxyStatus (ytProxyOnRequest (some (TargetUrl.mk "evil.example.com"))) = some 403
      ∧ proxyFetchPerformed (ytProxyOnRequest (some (TargetUrl.mk "evil.example.com"))) = false :=
  ⟨(yt_proxy_allowlist (some (TargetUrl.mk "www.youtube.com")) (TargetUrl.mk "evil.example.com")).1
      (by decide),
   (yt_proxy_allowlist (some (TargetUrl.mk "www.youtube.com")) (TargetUrl.mk "evil.example.com")).2.2
      (by decide)⟩

/-- Claim C1 counterexample: in the key-mapped SSE prototype two subscribers
attached to the same channel run two independent upstream poll loops — there
is no registry and `streamChatSSE` is invoked once per request. -/
theorem sse_loop_per_subscriber :
    sseLoopCount (sseConnect (sseConnect ⟨[]⟩ "UCchan") "UCchan") "UCchan" = 2
      ∧ ¬ sseLoopCount (sseConnect (sseConnect ⟨[]⟩ "UCchan") "UCchan") "UCchan" = 1 := by
  decide

/-- Claim C5 counterexample: in the WebSocket prototype the subscriber set
of the sole manager for "UCchan" becomes empty when its only socket closes,
yet no idle timer exists in the source, the manager stays in `managers`
unstopped, and a later attach reuses it without a new `start()` — the
session is never torn down while idle. -/
theorem chat_manager_not_reclaimed_when_idle :
    mgrLookup (wsClose (runConnections [("UCchan", ⟨1, 1⟩)]) "UCchan" ⟨1, 1⟩) "UCchan"
        = some { channelId := "UCchan", clients := [], stopped := false, startCalls := 1 }
      ∧ mgrLookup
          (wsConnection (wsClose (runConnections [("UCchan", ⟨1, 1⟩)]) "UCchan" ⟨1, 1⟩)
            "UCchan" ⟨2, 1⟩) "UCchan"
        = some { channelId := "UCchan", clients := [⟨2, 1⟩], stopped := false, startCalls := 1 } := by
  constructor
  · rfl
  · rfl

/-! ## Deduplication lemmas (C2, C3) -/

/-- Unfolding `jMem` over a cons cell. -/
theorem jMem_cons (i x : JVal) (seen : List JVal) :
    jMem i (x :: seen) = (if i = x then true else jMem i seen) := rfl

/-- How many messages with a given truthy id the delivery loop writes,
starting from an arbitrary `seen` set: none if the id is already seen,
else one exactly when the id occurs in the input. -/
theorem sseDeliverLoop_count (msgs : List SseMsg) (seen : List JVal) (i : JVal)
    (hi : truthy i = true) :
    ((sseDeliverLoop msgs seen).1.filter (fun m => decide (m.id = i))).length
      = if jMem i seen then 0
        else if msgs.any (fun m => decide (m.id = i)) then 1 else 0 := by
  induction msgs generalizing seen with
  | nil => simp [sseDeliverLoop]
  | cons m ms ih =>
    rw [sseDeliverLoop]
    by_cases h1 : truthy m.id = true ∧ jMem m.id seen = true
    · rw [if_pos h1, ih seen]
      by_cases hmi : m.id = i
      · have hseen : jMem i seen = true := by rw [← hmi]; exact h1.2
        simp [hseen]
      · simp [List.any_cons, hmi]
    · rw [if_neg h1]
      by_cases hmi : m.id = i
      · have htm : truthy m.id = true := by rw [hmi]; exact hi
        have hseen : jMem i seen = false := by
          cases hs : jMem i seen with
          | false => rfl
          | true => exact absurd ⟨htm, by rw [hmi]; exact hs⟩ h1
        have hs' : (if truthy m.id then m.id :: seen else seen) = i :: seen := by
          rw [hmi]
          simp [hi]
        rw [hs']
        have hmem : jMem i (i :: seen) = true := by
          rw [jMem_cons]
          simp
        have hcount := ih (i :: seen)
        rw [hmem] at hcount
        simp only [if_true] at hcount
        simp [List.filter_cons, hmi, hcount, hseen, List.any_cons]
      · have hpred : (decide (m.id = i)) = false := by simp [hmi]
        simp only [List.filter_cons, hpred]
        simp only [Bool.false_eq_true, if_false]
        rw [ih (if truthy m.id then m.id :: seen else seen)]
        have hseen2 : jMem i (if truthy m.id then m.id :: seen else seen) = jMem i seen := by
          by_cases ht : truthy m.id = true
          · simp only [ht, if_true, jMem_cons]
            rw [if_neg (fun h => hmi h.symm)]
          · simp [ht]
        rw [hseen2]
        simp [List.any_cons, hpred]

/-- The first delivered message with a given unseen truthy id is the first
input message with that id. -/
theorem sseDeliverLoop_find (msgs : List SseMsg) (seen : List JVal) (i : JVal)
    (_hi : truthy i = true) (hs : jMem i seen = false) :
    (sseDeliverLoop msgs seen).1.find? (fun m => decide (m.id = i))
      = msgs.find? (fun m => decide (m.id = i)) := by
  induction msgs generalizing seen with
  | nil => simp [sseDeliverLoop]
  | cons m ms ih =>
    rw [sseDeliverLoop]
    by_cases h1 : truthy m.id = true ∧ jMem m.id seen = true
    · rw [if_pos h1]
      have hmi : ¬ m.id = i := by
        intro h
        rw [h] at h1
        rw [h1.2] at hs
        exact absurd hs (by simp)
      rw [List.find?_cons_of_neg _ (by simpa using hmi)]
      exact ih seen hs
    · rw [if_neg h1]
      by_cases hmi : m.id = i
      · rw [List.find?_cons_of_pos _ (by simpa using hmi),
            List.find?_cons_of_pos _ (by simpa using hmi)]
      · rw [List.find?_cons_of_neg _ (by simpa using hmi),
            List.find?_cons_of_neg _ (by simpa using hmi)]
        by_cases ht : truthy m.id = true
        · have hs' : (if truthy m.id then m.id :: seen else seen) = m.id :: seen := by
            simp [ht]
          rw [hs']
          apply ih
          rw [jMem_cons, if_neg (fun h => hmi h.symm)]
          exact hs
        · have hs' : (if truthy m.id then m.id :: seen else seen) = seen := by simp [ht]
          rw [hs']
          exact ih seen hs

/-- Claim C2: a message id presented any number of times is passed through
exactly once by the dedup step — the first occurrence is delivered (and its
id recorded) and every later occurrence with the same truthy id is dropped
without delivery. -/
theorem dedup_single_pass (msgs : List SseMsg) (i : JVal) (hi : truthy i = true) :
    ((sseDeliverLoop msgs []).1.filter (fun m => decide (m.id = i))).length
        = (if msgs.any (fun m => decide (m.id = i)) then 1 else 0)
      ∧ (sseDeliverLoop msgs []).1.find? (fun m => decide (m.id = i))
        = msgs.find? (fun m => decide (m.id = i)) := by
  constructor
  · have h := sseDeliverLoop_count msgs [] i hi
    simpa [jMem] using h
  · exact sseDeliverLoop_find msgs [] i hi rfl

/-- Witness for the dedup theorem: the id "a" presented three times is
delivered exactly once, as the first occurrence. -/
theorem dedup_single_pass_witness :
    ((sseDeliverLoop [⟨.str "a", .str "x"⟩, ⟨.str "a", .str "y"⟩, ⟨.str "a", .str "z"⟩] []).1.filter
        (fun m => decide (m.id = .str "a"))).length
      = (if ([⟨.str "a", .str "x"⟩, ⟨.str "a", .str "y"⟩,
              (⟨.str "a", .str "z"⟩ : SseMsg)] : List SseMsg).any
            (fun m => decide (m.id = .str "a")) then 1 else 0)
      ∧ (sseDeliverLoop [⟨.str "a", .str "x"⟩, ⟨.str "a", .str "y"⟩, ⟨.str "a", .str "z"⟩] []).1.find?
          (fun m => decide (m.id = .str "a"))
        = ([⟨.str "a", .str "x"⟩, ⟨.str "a", .str "y"⟩,
            (⟨.str "a", .str "z"⟩ : SseMsg)] : List SseMsg).find?
            (fun m => decide (m.id = .str "a")) :=
  dedup_single_pass [⟨.str "a", .str "x"⟩, ⟨.str "a", .str "y"⟩, ⟨.str "a", .str "z"⟩]
    (.str "a") (by decide)

/-- Growth of the `seen` set: fresh, pairwise-distinct, truthy ids are all
recorded, so the set gains one entry per message. -/
theorem sseDeliverLoop_seen_len (msgs : List SseMsg) (seen : List JVal)
    (ht : ∀ m ∈ msgs, truthy m.id = true)
    (hn : (msgs.map SseMsg.id).Nodup)
    (hf : ∀ m ∈ msgs, jMem m.id seen = false) :
    ((sseDeliverLoop msgs seen).2).length = seen.length + msgs.length := by
  induction msgs generalizing seen with
  | nil => simp [sseDeliverLoop]
  | cons m ms ih =>
    have htm : truthy m.id = true := ht m (List.mem_cons_self m ms)
    have hfm : jMem m.id seen = false := hf m (List.mem_cons_self m ms)
    rw [sseDeliverLoop]
    have hcond : ¬ (truthy m.id = true ∧ jMem m.id seen = true) := by
      intro h
      rw [hfm] at h
      exact absurd h.2 (by simp)
    rw [if_neg hcond]
    have hs' : (if truthy m.id then m.id :: seen else seen) = m.id :: seen := by simp [htm]
    rw [hs']
    have hnotin : m.id ∉ ms.map SseMsg.id := by
      have h := hn
      simp only [List.map_cons, List.nodup_cons] at h
      exact h.1
    have hn' : (ms.map SseMsg.id).Nodup := by
      have h := hn
      simp only [List.map_cons, List.nodup_cons] at h
      exact h.2
    have hf' : ∀ x ∈ ms, jMem x.id (m.id :: seen) = false := by
      intro x hx
      have hxne : ¬ x.id = m.id := by
        intro hxe
        apply hnotin
        rw [← hxe]
        exact List.mem_map_of_mem SseMsg.id hx
      rw [jMem_cons, if_neg hxne]
      exact hf x (List.mem_cons_of_mem m hx)
    have hlen := ih (m.id :: seen) (fun x hx => ht x (List.mem_cons_of_mem m hx)) hn' hf'
    rw [hlen]
    simp [List.length_cons]
    omega

/-- Distinct truthy numeric ids (e.g. `timestampUsec` values) used to drive
the seen set arbitrarily large. -/
def idOfNat (n : Nat) : JVal := .num ((n : Int) + 1)

/-- A run of `k` messages with pairwise-distinct truthy ids. -/
def msgsOfNat (k : Nat) : List SseMsg := (List.range k).map (fun n => ⟨idOfNat n, .null⟩)

/-- Each generated id is truthy. -/
theorem idOfNat_truthy (n : Nat) : truthy (idOfNat n) = true := by
  simp only [idOfNat, truthy, bne_iff_ne, ne_eq]
  omega

/-- The generated ids are pairwise distinct. -/
theorem idOfNat_inj : Function.Injective idOfNat := by
  intro a b h
  simp only [idOfNat] at h
  have h2 : (a : Int) + 1 = (b : Int) + 1 := JVal.num.inj h
  omega

/-- The id column of `msgsOfNat k` has no duplicates. -/
theorem msgsOfNat_ids_nodup (k : Nat) : ((msgsOfNat k).map SseMsg.id).Nodup := by
  have h : (msgsOfNat k).map SseMsg.id = (List.range k).map idOfNat := by
    simp [msgsOfNat, List.map_map]
  rw [h]
  exact (List.nodup_range k).map idOfNat_inj

/-- Claim C3 counterexample: the Deduplicator's seen-id set is not bounded
by any fixed maximum size K — for every candidate K a run of K+1 distinct
truthy ids drives its size past K, so no eviction threshold exists and, a
fortiori, the "oldest id's duplicate passes through again" behaviour never
occurs. -/
theorem dedup_window_not_bounded :
    ¬ ∃ K : Nat, ∀ msgs : List SseMsg, ((sseDeliverLoop msgs []).2).length ≤ K := by
  rintro ⟨K, hK⟩
  have ht : ∀ m ∈ msgsOfNat (K + 1), truthy m.id = true := by
    intro m hm
    obtain ⟨n, _, rfl⟩ := List.mem_map.mp hm
    exact idOfNat_truthy n
  have hlen := sseDeliverLoop_seen_len (msgsOfNat (K + 1)) [] ht
    (msgsOfNat_ids_nodup (K + 1)) (fun m _ => rfl)
  have hcount : (msgsOfNat (K + 1)).length = K + 1 := by simp [msgsOfNat]
  have hle := hK (msgsOfNat (K + 1))
  rw [hlen, hcount] at hle
  omega

/-- Membership in the final seen set: every truthy id ever presented is
recorded and stays recorded — there is no eviction. -/
theorem sseDeliverLoop_seen_mem (msgs : List SseMsg) (seen : List JVal) (i : JVal) :
    jMem i (sseDeliverLoop msgs seen).2
      = (jMem i seen || msgs.any (fun x => truthy x.id && decide (x.id = i))) := by
  induction msgs generalizing seen with
  | nil => simp [sseDeliverLoop]
  | cons m ms ih =>
    rw [sseDeliverLoop]
    by_cases h1 : truthy m.id = true ∧ jMem m.id seen = true
    · rw [if_pos h1, ih seen, List.any_cons]
      by_cases hmi : m.id = i
      · have hseen : jMem i seen = true := by rw [← hmi]; exact h1.2
        simp [hseen]
      · simp [hmi]
    · rw [if_neg h1]
      by_cases ht : truthy m.id = true
      · have hs' : (if truthy m.id then m.id :: seen else seen) = m.id :: seen := by simp [ht]
        rw [hs', ih (m.id :: seen), List.any_cons, jMem_cons]
        by_cases hmi : i = m.id
        · simp [hmi, ht]
        · have hmi' : ¬ m.id = i := fun h => hmi h.symm
          simp [hmi, hmi', ht]
      · have hs' : (if truthy m.id then m.id :: seen else seen) = seen := by simp [ht]
        have htf : truthy m.id = false := by
          cases h : truthy m.id with
          | false => rfl
          | true => exact absurd h ht
        rw [hs', ih seen, List.any_cons]
        simp [htf]

/-- Claim C3 amended: the seen-id set is unbounded and never evicts — every
truthy id ever presented remains recorded for the rest of the session, and
in particular a duplicate of the oldest id is still filtered (the id passes
through exactly once) no matter how many messages intervene. -/
theorem dedup_no_eviction (msgs : List SseMsg) (seen : List JVal) (i : JVal)
    (m : SseMsg) (rest : List SseMsg) (hm : truthy m.id = true) :
    jMem i (sseDeliverLoop msgs seen).2
        = (jMem i seen || msgs.any (fun x => truthy x.id && decide (x.id = i)))
      ∧ ((sseDeliverLoop (m :: (rest ++ [m])) []).1.filter
          (fun x => decide (x.id = m.id))).length = 1 := by
  constructor
  · exact sseDeliverLoop_seen_mem msgs seen i
  · have h := sseDeliverLoop_count (m :: (rest ++ [m])) [] m.id hm
    have hany : ((m :: (rest ++ [m])).any (fun x => decide (x.id = m.id))) = true := by
      simp [List.any_cons]
    simpa [jMem, hany] using h

/-- Witness for the no-eviction theorem: id "a" delivered once even when its
duplicate arrives after two other ids. -/
theorem dedup_no_eviction_witness :
    jMem (.str "b") (sseDeliverLoop [⟨.str "b", .null⟩] []).2
        = (jMem (.str "b") [] || ([(⟨.str "b", .null⟩ : SseMsg)] : List SseMsg).any
            (fun x => truthy x.id && decide (x.id = .str "b")))
      ∧ ((sseDeliverLoop
            ((⟨.str "a", .null⟩ : SseMsg) :: ([⟨.str "c", .null⟩, ⟨.str "d", .null⟩] ++
              [⟨.str "a", .null⟩])) []).1.filter
          (fun x => decide (x.id = JVal.str "a"))).length = 1 :=
  dedup_no_eviction [⟨.str "b", .null⟩] [] (.str "b") ⟨.str "a", .null⟩
    [⟨.str "c", .null⟩, ⟨.str "d", .null⟩] (by decide)

/-! ## Registry invariants (C1) -/

/-- The invariant maintained by `wss.on('connection')` on the `managers`
map: channel keys are pairwise distinct, and every stored manager was
started exactly once and is keyed by its own channel id. -/
abbrev RegistryInv (st : Managers) : Prop :=
  (st.map Prod.fst).Nodup ∧ ∀ p ∈ st, p.2.startCalls = 1 ∧ p.2.channelId = p.1

/-- The empty registry satisfies the invariant. -/
theorem registryInv_nil : RegistryInv [] := ⟨List.nodup_nil, by simp⟩

/-- `mgrUpdate` leaves the key column unchanged. -/
theorem mgrUpdate_keys (st : Managers) (ch : String) (m : ChatManager) :
    (mgrUpdate st ch m).map Prod.fst = st.map Prod.fst := by
  induction st with
  | nil => rfl
  | cons p ps ih =>
    simp only [mgrUpdate, List.map_cons] at ih ⊢
    by_cases h : p.1 = ch
    · simp [h, ih]
    · simp [h, ih]

/-- Every element of an updated registry is the new binding or an old
element. -/
theorem mgrUpdate_mem (st : Managers) (ch : String) (m : ChatManager) (q : String × ChatManager)
    (hq : q ∈ mgrUpdate st ch m) : q = (ch, m) ∨ q ∈ st := by
  simp only [mgrUpdate, List.mem_map] at hq
  obtain ⟨p, hp, hpq⟩ := hq
  by_cases h : p.1 = ch
  · rw [if_pos h] at hpq
    exact Or.inl hpq.symm
  · rw [if_neg h] at hpq
    exact Or.inr (hpq ▸ hp)

/-- A successful lookup means the pair is stored under its key. -/
theorem mgrLookup_mem (st : Managers) (ch : String) (m : ChatManager)
    (h : mgrLookup st ch = some m) : (ch, m) ∈ st := by
  unfold mgrLookup at h
  cases hf : List.find? (fun p => decide (p.1 = ch)) st with
  | none => rw [hf] at h; exact absurd h (by simp)
  | some p =>
    rw [hf] at h
    have hp := List.mem_of_find?_eq_some hf
    have hpred := List.find?_some hf
    simp only [decide_eq_true_eq] at hpred
    simp only [Option.some.injEq] at h
    have hpe : p = (ch, m) := by
      cases p with
      | mk a b => simp_all
    exact hpe ▸ hp

/-- A failed lookup means the key is absent. -/
theorem mgrLookup_none (st : Managers) (ch : String)
    (h : mgrLookup st ch = none) : ch ∉ st.map Prod.fst := by
  unfold mgrLookup at h
  cases hf : List.find? (fun p => decide (p.1 = ch)) st with
  | some p => rw [hf] at h; exact absurd h (by simp)
  | none =>
    intro hmem
    obtain ⟨p, hp, hpe⟩ := List.mem_map.mp hmem
    have hnp := List.find?_eq_none.mp hf p hp
    simp [hpe] at hnp

/-- One connection event preserves the registry invariant: an existing
manager is reused (no second session, no second `start()`), a missing one
is created and started once. -/
theorem wsConnection_inv (st : Managers) (ch : String) (ws : WsClient)
    (h : RegistryInv st) : RegistryInv (wsConnection st ch ws) := by
  unfold wsConnection
  cases hl : mgrLookup st ch with
  | some m =>
    constructor
    · rw [mgrUpdate_keys]
      exact h.1
    · intro q hq
      rcases mgrUpdate_mem st ch (mgrAddClient m ws) q hq with hq1 | hq2
      · subst hq1
        have hm := h.2 (ch, m) (mgrLookup_mem st ch m hl)
        exact ⟨by simpa [mgrAddClient] using hm.1, by simpa [mgrAddClient] using hm.2⟩
      · exact h.2 q hq2
  | none =>
    constructor
    · simp only [List.map_cons]
      exact List.nodup_cons.mpr ⟨mgrLookup_none st ch hl, h.1⟩
    · intro q hq
      rcases List.mem_cons.mp hq with hq1 | hq2
      · subst hq1
        exact ⟨by simp [mgrAddClient], by simp [mgrAddClient]⟩
      · exact h.2 q hq2

/-- Any trace of connections keeps the registry invariant. -/
theorem runConnections_inv (trace : List (String × WsClient)) :
    RegistryInv (runConnections trace) := by
  have h : ∀ st, RegistryInv st →
      RegistryInv (List.foldl (fun st p => wsConnection st p.1 p.2) st trace) := by
    induction trace with
    | nil => intro st hst; exact hst
    | cons p ps ih =>
      intro st hst
      exact ih _ (wsConnection_inv st p.1 p.2 hst)
  exact h [] registryInv_nil

/-- With pairwise-distinct keys at most one stored entry matches a
channel. -/
theorem filter_key_len_le_one (st : Managers) (h : (st.map Prod.fst).Nodup) (ch : String) :
    (st.filter (fun p => decide (p.1 = ch))).length ≤ 1 := by
  induction st with
  | nil => simp
  | cons p ps ih =>
    simp only [List.map_cons, List.nodup_cons] at h
    by_cases hp : p.1 = ch
    · have hnil : ps.filter (fun q => decide (q.1 = ch)) = [] := by
        rw [List.filter_eq_nil_iff]
        intro q hq
        simp only [decide_eq_true_eq]
        intro hq1
        apply h.1
        rw [hp, ← hq1]
        exact List.mem_map_of_mem Prod.fst hq
      simp [List.filter_cons, hp, hnil]
    · have hd : (decide (p.1 = ch)) = false := by simp [hp]
      simp only [List.filter_cons, hd, Bool.false_eq_true, if_false]
      exact ih h.2

/-- `broadcast` hands every open socket the very same serialized data. -/
theorem mgrBroadcast_same_data (m : ChatManager) (data : String) (d : Nat × String)
    (hd : d ∈ mgrBroadcast m data) : d.2 = data := by
  simp only [mgrBroadcast, List.mem_map] at hd
  obtain ⟨c, _, rfl⟩ := hd
  rfl

/-- Claim C1 amended: in the map-based registries (modelled here on the
WebSocket `managers` map) any trace of connections leaves at most one
manager per channel, the stored manager's poll loop was started exactly
once, and `broadcast` delivers the identical data to every attached open
socket; the per-request SSE endpoints violate the claim by running one poll
loop per subscriber. -/
theorem ws_registry_single_session (trace : List (String × WsClient)) (ch : String)
    (m : ChatManager) (data : String) (d : Nat × String)
    (hm : mgrLookup (runConnections trace) ch = some m)
    (hd : d ∈ mgrBroadcast m data) :
    ((runConnections trace).filter (fun p => decide (p.1 = ch))).length ≤ 1
      ∧ m.startCalls = 1 ∧ d.2 = data := by
  have hinv := runConnections_inv trace
  refine ⟨filter_key_len_le_one _ hinv.1 ch, ?_, mgrBroadcast_same_data m data d hd⟩
  exact (hinv.2 (ch, m) (mgrLookup_mem _ ch m hm)).1

/-- Witness: two subscribers connect to the same channel; the registry holds
one manager, started once, and both open sockets get the same data. -/
theorem ws_registry_single_session_witness :
    ((runConnections [("UCchan", ⟨1, 1⟩), ("UCchan", ⟨2, 1⟩)]).filter
        (fun p => decide (p.1 = "UCchan"))).length ≤ 1
      ∧ ({ channelId := "UCchan", clients := [⟨2, 1⟩, ⟨1, 1⟩], stopped := false,
           startCalls := 1 } : ChatManager).startCalls = 1
      ∧ (((2 : Nat), "hello") : Nat × String).2 = "hello" :=
  ws_registry_single_session [("UCchan", ⟨1, 1⟩), ("UCchan", ⟨2, 1⟩)] "UCchan"
    { channelId := "UCchan", clients := [⟨2, 1⟩, ⟨1, 1⟩], stopped := false, startCalls := 1 }
    "hello" (2, "hello") (by decide) (by decide)

/-! ## Poller idle lifecycle (C5) -/

/-- After `stop()` filters a poller out of the map, looking its video id up
finds nothing. -/
theorem pollersLookup_filter_out (reg : Pollers) (vid : String) :
    pollersLookup (reg.filter (fun q => !(decide (q.1 = vid)))) vid = none := by
  induction reg with
  | nil => rfl
  | cons p ps ih =>
    simp only [List.filter_cons]
    by_cases h : p.1 = vid
    · have hd : (!(decide (p.1 = vid))) = false := by simp [h]
      simp only [hd, Bool.false_eq_true, if_false]
      exact ih
    · have hd : (!(decide (p.1 = vid))) = true := by simp [h]
      simp only [hd, if_true]
      unfold pollersLookup
      rw [List.find?_cons_of_neg _ (by simp [h])]
      unfold pollersLookup at ih
      exact ih

/-- Claim C5 amended: only the Poller registry implements the idle grace
teardown — when removing a socket leaves no clients, a stop is scheduled
after the fixed 20 000 ms grace delay; a new attach clears the pending stop
and leaves the loop running; and when the timer fires on a poller that is
still clientless, the poller is stopped and removed from the `pollers` map.
(The WebSocket `ChatManager` registry never tears an idle session down, and
the socket.io listener registry tears it down immediately with no grace
window.) -/
theorem poller_idle_lifecycle (p q : Poller) (s : Nat) (reg : Pollers) (vid : String)
    (h1 : (pollerRemoveClient p s).clientSockets = [])
    (h2 : pollersLookup reg vid = some q)
    (h3 : q.graceStopPending = true) (h4 : q.clientSockets = []) :
    (pollerRemoveClient p s).graceStopPending = true
      ∧ (pollerAddClient p s).graceStopPending = false
      ∧ (pollerAddClient p s).running = p.running
      ∧ pollersLookup (graceTimerFire reg vid) vid = none
      ∧ graceStopDelayMs = 20000 := by
  refine ⟨?_, rfl, rfl, ?_, rfl⟩
  · have hcs : (p.clientSockets.filter (fun c => !(c == s))) = [] := h1
    simp [pollerRemoveClient, hcs]
  · unfold graceTimerFire
    rw [h2]
    simp only [h3, h4, List.isEmpty_nil, and_self, if_true]
    exact pollersLookup_filter_out reg vid

/-- Witness: removing the only socket schedules the grace stop; re-attaching
cancels it; the timer firing on an empty poller removes it from the map. -/
theorem poller_idle_lifecycle_witness :
    (pollerRemoveClient ⟨"vid1", [7], false, true⟩ 7).graceStopPending = true
      ∧ (pollerAddClient ⟨"vid1", [7], false, true⟩ 7).graceStopPending = false
      ∧ (pollerAddClient ⟨"vid1", [7], false, true⟩ 7).running
          = (⟨"vid1", [7], false, true⟩ : Poller).running
      ∧ pollersLookup (graceTimerFire [("vid1", ⟨"vid1", [], true, true⟩)] "vid1") "vid1" = none
      ∧ graceStopDelayMs = 20000 :=
  poller_idle_lifecycle ⟨"vid1", [7], false, true⟩ ⟨"vid1", [], true, true⟩ 7
    [("vid1", ⟨"vid1", [], true, true⟩)] "vid1" (by decide) (by decide) (by decide) (by decide)

/-! ## Rich-text order preservation (C8) -/

/-- Claim C8: `parseChatAction` preserves segment order — when the runs loop
succeeds it produces exactly one part per run, and the i-th output segment
is the translation of the i-th upstream run, so segment i precedes segment
j exactly when run i precedes run j. -/
theorem parts_preserve_run_order (runs : List JVal) (ps : List MsgPart)
    (h : partsOfRuns runs = .ok ps) :
    ps.length = runs.length
      ∧ ∀ i (hi : i < runs.length) (hp : i < ps.length),
          partOfRun (runs.get ⟨i, hi⟩) = .ok (ps.get ⟨i, hp⟩) := by
  induction runs generalizing ps with
  | nil =>
    simp only [partsOfRuns] at h
    cases h
    simp
  | cons r rs ih =>
    cases hr : partOfRun r with
    | error e =>
      simp only [partsOfRuns, hr] at h
      exact absurd h (by simp)
    | ok p =>
      cases hrs : partsOfRuns rs with
      | error e =>
        simp only [partsOfRuns, hr, hrs] at h
        exact absurd h (by simp)
      | ok ps' =>
        simp only [partsOfRuns, hr, hrs, Except.ok.injEq] at h
        subst h
        obtain ⟨hl, hg⟩ := ih ps' hrs
        constructor
        · simp [hl]
        · intro i hi hp
          cases i with
          | zero => simpa using hr
          | succ n =>
            exact hg n (Nat.lt_of_succ_lt_succ hi) (Nat.lt_of_succ_lt_succ hp)

/-- Sample text run used by the order-preservation witness. -/
def sampleTextRun : JVal := .obj [("text", .str "hi")]

/-- Sample emoji run used by the order-preservation witness. -/
def sampleEmojiRun : JVal :=
  .obj [("emoji", .obj [("image", .obj [("thumbnails", .arr [.obj [("url", .str "http://e/1.png")]])]),
    ("shortcuts", .arr [.str ":e:"])])]

/-- Witness: a text run followed by an emoji run yields exactly two parts in
the same order. -/
theorem parts_preserve_run_order_witness :
    ([MsgPart.text (JVal.str "hi"),
      MsgPart.emoji (JVal.str "http://e/1.png") (JVal.arr [JVal.str ":e:"])] : List MsgPart).length
        = ([sampleTextRun, sampleEmojiRun] : List JVal).length
      ∧ ∀ i (hi : i < ([sampleTextRun, sampleEmojiRun] : List JVal).length)
          (hp : i < ([MsgPart.text (JVal.str "hi"),
            MsgPart.emoji (JVal.str "http://e/1.png") (JVal.arr [JVal.str ":e:"])] : List MsgPart).length),
          partOfRun (([sampleTextRun, sampleEmojiRun] : List JVal).get ⟨i, hi⟩)
            = .ok (([MsgPart.text (JVal.str "hi"),
                MsgPart.emoji (JVal.str "http://e/1.png") (JVal.arr [JVal.str ":e:"])] : List MsgPart).get ⟨i, hp⟩) :=
  parts_preserve_run_order [sampleTextRun, sampleEmojiRun]
    [MsgPart.text (JVal.str "hi"),
     MsgPart.emoji (JVal.str "http://e/1.png") (JVal.arr [JVal.str ":e:"])] (by rfl)
